import Mathlib

/-!
# AsyncLoadingLibrary

A shallow embedding of `AsyncLoadingLibrary.h` / `AsyncLoadingLibrary.cpp`.

Stateful code is written in state-passing style.  Calls into the host engine
(asset manager, streamable manager, delegates, log) are recorded as a trace of
`Effect`s, in program order.  What the host answers when the code queries it
(object resolution, handle status, world lookup) is passed in explicitly.
-/

namespace AsyncLoadingLibrary

/-! ## Host types -/

/-- Soft object path: a stable, comparable identifier of an asset. -/
structure FSoftObjectPath where
  AssetPath : Nat
deriving DecidableEq, Repr

/-- Object pointer, compared by identity. -/
abbrev UObjectPtr := Nat

/-- World pointer, compared by identity. -/
abbrev UWorldPtr := Nat

/-- Identity of one streamable handle handed out by the loader. -/
abbrev FStreamableHandle := Nat

abbrev TAsyncLoadPriority := Int

abbrev FName := Nat

/-- Parameterless delegate of the bundle path; `none` is the unbound delegate,
`some d` is bound to the function `d`. -/
abbrev FStreamableDelegate := Option Nat

/-- Delegate `FOnAssetsLoaded(const TArray<UObject*>&)`; `none` is unbound. -/
abbrev FOnAssetsLoaded := Option Nat

/-- Typed soft pointers only wrap a soft object path. -/
structure TSoftObjectPtr where
  ObjectPath : FSoftObjectPath
deriving DecidableEq, Repr

structure TSoftClassPtr where
  ObjectPath : FSoftObjectPath
deriving DecidableEq, Repr

def TSoftObjectPtr.ToSoftObjectPath (p : TSoftObjectPtr) : FSoftObjectPath := p.ObjectPath

def TSoftClassPtr.ToSoftObjectPath (p : TSoftClassPtr) : FSoftObjectPath := p.ObjectPath

/-- A `TSet` is represented by the list of its elements in iteration order. -/
abbrev TSet (α : Type) := List α

/-- Calls that leave this library, in the order in which they are made. -/
inductive Effect where
  /-- Call of `UAssetManager::LoadAssetList(paths, delegate, priority, debugName)` -/
  | LoadAssetList (paths : List FSoftObjectPath) (callback : FStreamableDelegate)
      (loadPriority : TAsyncLoadPriority) (debugName : String)
  /-- Call of `FStreamableDelegate::ExecuteIfBound()` on a bound delegate: no arguments -/
  | ExecuteStreamableDelegate (d : Nat)
  /-- Call of `FStreamableManager::RequestAsyncLoad(paths)`, with the handle it returned -/
  | RequestAsyncLoad (paths : List FSoftObjectPath) (result : Option FStreamableHandle)
  /-- Call of `FOnAssetsLoaded::Execute(loadedObjects)` -/
  | ExecuteOnAssetsLoaded (d : Nat) (loadedObjects : List UObjectPtr)
  /-- The `UE_LOG(AsyncLoadLibrary, Warning, ...)` line of `OnLoaded` -/
  | LogWarning (path : FSoftObjectPath)
  /-- Call of `FStreamableHandle::ReleaseHandle()` -/
  | ReleaseHandle (h : FStreamableHandle)
deriving DecidableEq, Repr

/-- What the host reports when it is queried during one call or one tick. -/
structure FHostView where
  /-- Result of `FSoftObjectPath::ResolveObject()`; `none` is `nullptr` -/
  ResolveObject : FSoftObjectPath → Option UObjectPtr
  /-- Result of `FStreamableHandle::HasLoadCompleted()` -/
  HasLoadCompleted : FStreamableHandle → Bool
  /-- Result of `FStreamableHandle::WasCanceled()` -/
  WasCanceled : FStreamableHandle → Bool
  /-- Result of `FWeakObjectPtr::IsValid()` for a weak pointer to the given object -/
  IsValid : UObjectPtr → Bool

/-! ## `FBundleAsset`, `FAsyncLoadBundle` (AsyncLoadingLibrary.h) -/

structure FBundleAsset where
  ObjectPath : FSoftObjectPath
deriving DecidableEq, Repr

def FBundleAsset.GetPath (a : FBundleAsset) : FSoftObjectPath := a.ObjectPath

def FBundleAsset.GetObject (host : FHostView) (a : FBundleAsset) : Option UObjectPtr :=
  host.ResolveObject a.ObjectPath

abbrev FAssetBundle := List FBundleAsset

structure FAsyncLoadBundle where
  ObjectBundle : FAssetBundle
  CallbackDelegate : FStreamableDelegate
deriving DecidableEq, Repr

/-- Body of the `for` loop of `TriggerLoad`. -/
def FAsyncLoadBundle.collectStep (host : FHostView) (objectsRequiringLoad : List FSoftObjectPath)
    (asset : FBundleAsset) : List FSoftObjectPath :=
  if (asset.GetObject host).isNone then objectsRequiringLoad ++ [asset.GetPath]
  else objectsRequiringLoad

/-- Method `FAsyncLoadBundle::TriggerLoad(loadPriority, debugName)`; the C++ defaults are
`50` and `"LoadAsyncBundle"`. -/
def FAsyncLoadBundle.TriggerLoad (host : FHostView) (b : FAsyncLoadBundle)
    (loadPriority : TAsyncLoadPriority) (debugName : String) : List Effect :=
  let objectsRequiringLoad := b.ObjectBundle.foldl (FAsyncLoadBundle.collectStep host) []
  if objectsRequiringLoad.length > 0 then
    [Effect.LoadAssetList objectsRequiringLoad b.CallbackDelegate loadPriority debugName]
  else
    match b.CallbackDelegate with
    | some d => [Effect.ExecuteStreamableDelegate d]
    | none => []

/-! ## `FLoadAssetActionBase` (AsyncLoadingLibrary.cpp) -/

structure FLatentActionInfo where
  Linkage : Int
  UUID : Int
  ExecutionFunction : FName
  CallbackTarget : UObjectPtr
deriving DecidableEq, Repr

structure FLoadAssetActionBase where
  SoftObjectPaths : List FSoftObjectPath
  /-- The `TSharedPtr<FStreamableHandle>`; `none` is the invalid (null) pointer -/
  Handle : Option FStreamableHandle
  OnLoadedCallback : FOnAssetsLoaded
  /-- The `FWeakObjectPtr` to the continuation target -/
  CallbackTarget : UObjectPtr
  ExecutionFunction : FName
  OutputLink : Int
deriving DecidableEq, Repr

/-- Loader side of the program state: the next handle the streamable manager hands out. -/
structure FLoader where
  NextHandle : Nat
deriving DecidableEq, Repr

/-- Modelled from the spec: the loader's `requestLoad(identifiers) -> Handle`
(`FStreamableManager::RequestAsyncLoad`, host code).  Every accepted request gets a
handle of its own; `accepts` says for which identifier lists the host returns a valid
handle at all, the code guarding every use of the handle with `Handle.IsValid()`. -/
def FStreamableManager.RequestAsyncLoad (accepts : List FSoftObjectPath → Bool) (l : FLoader)
    (paths : List FSoftObjectPath) : Option FStreamableHandle × FLoader :=
  if accepts paths then (some l.NextHandle, ⟨l.NextHandle + 1⟩) else (none, l)

/-- Constructor `FLoadAssetActionBase(const TArray<FSoftObjectPath>&, callback, latentInfo)`. -/
def FLoadAssetActionBase.construct (accepts : List FSoftObjectPath → Bool) (l : FLoader)
    (softObjectPaths : List FSoftObjectPath) (callBackDelegate : FOnAssetsLoaded)
    (latentInfo : FLatentActionInfo) : FLoadAssetActionBase × FLoader × List Effect :=
  let r := FStreamableManager.RequestAsyncLoad accepts l softObjectPaths
  (⟨softObjectPaths, r.1, callBackDelegate, latentInfo.CallbackTarget,
      latentInfo.ExecutionFunction, latentInfo.Linkage⟩,
    r.2, [Effect.RequestAsyncLoad softObjectPaths r.1])

/-- Constructor taking a `TSet`: delegates with `softObjectPaths.Array()`. -/
def FLoadAssetActionBase.constructFromSet (accepts : List FSoftObjectPath → Bool) (l : FLoader)
    (softObjectPaths : TSet FSoftObjectPath) (callBackDelegate : FOnAssetsLoaded)
    (latentInfo : FLatentActionInfo) : FLoadAssetActionBase × FLoader × List Effect :=
  FLoadAssetActionBase.construct accepts l softObjectPaths callBackDelegate latentInfo

/-- Destructor `~FLoadAssetActionBase()`. -/
def FLoadAssetActionBase.destroy (a : FLoadAssetActionBase) : List Effect :=
  match a.Handle with
  | some h => [Effect.ReleaseHandle h]
  | none => []

/-- Body of the `for` loop of `OnLoaded`: the state is the array `loadedObjects`
and the warnings logged so far. -/
def FLoadAssetActionBase.resolveStep (host : FHostView) (st : List UObjectPtr × List Effect)
    (softObjectPath : FSoftObjectPath) : List UObjectPtr × List Effect :=
  match host.ResolveObject softObjectPath with
  | some resolvedObject => (st.1 ++ [resolvedObject], st.2)
  | none => (st.1, st.2 ++ [Effect.LogWarning softObjectPath])

/-- Method `FLoadAssetActionBase::OnLoaded()`. -/
def FLoadAssetActionBase.OnLoaded (host : FHostView) (a : FLoadAssetActionBase) : List Effect :=
  match a.OnLoadedCallback with
  | some d =>
    let st := a.SoftObjectPaths.foldl (FLoadAssetActionBase.resolveStep host) ([], [])
    st.2 ++ [Effect.ExecuteOnAssetsLoaded d st.1]
  | none => []

/-- One `FPendingLatentAction::FExecutionInfo` queued in a latent response. -/
structure FExecutionInfo where
  ExecutionFunction : FName
  LinkID : Int
  CallbackTarget : UObjectPtr
deriving DecidableEq, Repr

structure FLatentResponse where
  bRemoveAction : Bool
  LinksToExecute : List FExecutionInfo
deriving DecidableEq, Repr

/-- Modelled from the spec: the scheduler's finish signal ("signal the scheduler that
this unit of work is finished and should release its continuation",
`FLatentResponse::FinishAndTriggerIf`, host code). -/
def FLatentResponse.FinishAndTriggerIf (r : FLatentResponse) (Condition : Bool)
    (ExecutionFunction : FName) (LinkID : Int) (InCallbackTarget : UObjectPtr) : FLatentResponse :=
  if Condition then ⟨true, r.LinksToExecute ++ [⟨ExecutionFunction, LinkID, InCallbackTarget⟩]⟩
  else ⟨false, r.LinksToExecute⟩

/-- The local `bLoaded` of `UpdateOperation`:
`!Handle.IsValid() || Handle->HasLoadCompleted() || Handle->WasCanceled()`. -/
def FLoadAssetActionBase.bLoaded (host : FHostView) (a : FLoadAssetActionBase) : Bool :=
  match a.Handle with
  | none => true
  | some h => host.HasLoadCompleted h || host.WasCanceled h

/-- Method `FLoadAssetActionBase::UpdateOperation(Response)`. -/
def FLoadAssetActionBase.UpdateOperation (host : FHostView) (a : FLoadAssetActionBase)
    (Response : FLatentResponse) : List Effect × FLatentResponse :=
  let bLoaded := a.bLoaded host
  let eff := if bLoaded then a.OnLoaded host else []
  (eff, Response.FinishAndTriggerIf bLoaded a.ExecutionFunction a.OutputLink a.CallbackTarget)

/-! ## Action registry and scheduler (host side) -/

/-- One registered latent action: the world whose latent action manager holds it, the
key `(CallbackTarget, UUID)` it was added under, and the action. -/
structure FLatentEntry where
  World : UWorldPtr
  Target : UObjectPtr
  UUID : Int
  Action : FLoadAssetActionBase
deriving DecidableEq, Repr

def FLatentEntry.hasKey (World : UWorldPtr) (Target : UObjectPtr) (UUID : Int)
    (x : FLatentEntry) : Bool :=
  x.World == World && x.Target == Target && x.UUID == UUID

/-- Program state: the latent actions of all worlds' latent action managers, and the loader.
`World->GetLatentActionManager()` is the part of `LatentActions` whose `World` is that world. -/
structure FEngine where
  LatentActions : List FLatentEntry
  Loader : FLoader
deriving DecidableEq, Repr

/-- Modelled from the spec: the registry's `findOrNone(key)`
(`FLatentActionManager::FindExistingAction`, host code). -/
def FLatentActionManager.FindExistingAction (acts : List FLatentEntry) (World : UWorldPtr)
    (Target : UObjectPtr) (UUID : Int) : Option FLoadAssetActionBase :=
  (acts.find? (FLatentEntry.hasKey World Target UUID)).map FLatentEntry.Action

/-- Modelled from the spec: the registry's `register(key, action)`
(`FLatentActionManager::AddNewAction`, host code). -/
def FLatentActionManager.AddNewAction (acts : List FLatentEntry) (World : UWorldPtr)
    (Target : UObjectPtr) (UUID : Int) (NewAction : FLoadAssetActionBase) : List FLatentEntry :=
  ⟨World, Target, UUID, NewAction⟩ :: acts

/-- Modelled from the spec: the registry's `remove(key)` (host code). -/
def FLatentActionManager.RemoveAction (acts : List FLatentEntry) (World : UWorldPtr)
    (Target : UObjectPtr) (UUID : Int) : List FLatentEntry :=
  acts.eraseP (FLatentEntry.hasKey World Target UUID)

/-- What the host decides when a request is issued. -/
structure FHostServices where
  /-- Result of `GEngine->GetWorldFromContextObject(obj, LogAndReturnNull)`; `none` is `nullptr` -/
  GetWorldFromContextObject : UObjectPtr → Option UWorldPtr
  /-- Whether `RequestAsyncLoad` returns a valid handle for this identifier list -/
  AcceptsLoad : List FSoftObjectPath → Bool

/-- Function `UAsyncLoadingLibrary::ConvertSoftPtrSetToSoftObjectPathArray` for `TSoftObjectPtr`. -/
def ConvertSoftPtrSetToSoftObjectPathArray (assets : TSet TSoftObjectPtr)
    (outSoftObjectPaths : List FSoftObjectPath) : List FSoftObjectPath :=
  assets.foldl (fun out asset => out ++ [asset.ToSoftObjectPath]) outSoftObjectPaths

/-- Function `UAsyncLoadingLibrary::ConvertSoftPtrSetToSoftObjectPathArray` for `TSoftClassPtr`. -/
def ConvertSoftClassPtrSetToSoftObjectPathArray (assets : TSet TSoftClassPtr)
    (outSoftObjectPaths : List FSoftObjectPath) : List FSoftObjectPath :=
  assets.foldl (fun out asset => out ++ [asset.ToSoftObjectPath]) outSoftObjectPaths

/-- Function `UAsyncLoadingLibrary::AsyncLoadAnyAssets`. -/
def AsyncLoadAnyAssets (svc : FHostServices) (e : FEngine) (worldContextObject : UObjectPtr)
    (assets : TSet FSoftObjectPath) (onAssetsLoaded : FOnAssetsLoaded)
    (latentAction : FLatentActionInfo) : FEngine × List Effect :=
  match svc.GetWorldFromContextObject worldContextObject with
  | some World =>
    if (FLatentActionManager.FindExistingAction e.LatentActions World
          latentAction.CallbackTarget latentAction.UUID).isNone then
      let c := FLoadAssetActionBase.constructFromSet svc.AcceptsLoad e.Loader assets
        onAssetsLoaded latentAction
      (⟨FLatentActionManager.AddNewAction e.LatentActions World latentAction.CallbackTarget
          latentAction.UUID c.1, c.2.1⟩, c.2.2)
    else (e, [])
  | none => (e, [])

/-- Function `UAsyncLoadingLibrary::AsyncLoadAssets`. -/
def AsyncLoadAssets (svc : FHostServices) (e : FEngine) (worldContextObject : UObjectPtr)
    (assets : TSet TSoftObjectPtr) (onAssetsLoaded : FOnAssetsLoaded)
    (latentAction : FLatentActionInfo) : FEngine × List Effect :=
  match svc.GetWorldFromContextObject worldContextObject with
  | some World =>
    if (FLatentActionManager.FindExistingAction e.LatentActions World
          latentAction.CallbackTarget latentAction.UUID).isNone then
      let softObjectPaths := ConvertSoftPtrSetToSoftObjectPathArray assets []
      let c := FLoadAssetActionBase.construct svc.AcceptsLoad e.Loader softObjectPaths
        onAssetsLoaded latentAction
      (⟨FLatentActionManager.AddNewAction e.LatentActions World latentAction.CallbackTarget
          latentAction.UUID c.1, c.2.1⟩, c.2.2)
    else (e, [])
  | none => (e, [])

/-- Function `UAsyncLoadingLibrary::AsyncLoadClasses`. -/
def AsyncLoadClasses (svc : FHostServices) (e : FEngine) (worldContextObject : UObjectPtr)
    (assets : TSet TSoftClassPtr) (onAssetsLoaded : FOnAssetsLoaded)
    (latentAction : FLatentActionInfo) : FEngine × List Effect :=
  match svc.GetWorldFromContextObject worldContextObject with
  | some World =>
    if (FLatentActionManager.FindExistingAction e.LatentActions World
          latentAction.CallbackTarget latentAction.UUID).isNone then
      let softObjectPaths := ConvertSoftClassPtrSetToSoftObjectPathArray assets []
      let c := FLoadAssetActionBase.construct svc.AcceptsLoad e.Loader softObjectPaths
        onAssetsLoaded latentAction
      (⟨FLatentActionManager.AddNewAction e.LatentActions World latentAction.CallbackTarget
          latentAction.UUID c.1, c.2.1⟩, c.2.2)
    else (e, [])
  | none => (e, [])

/-- Function `UAsyncLoadingLibrary::AsyncLoadAnyAssets_Event`; `defaultInfo` is the
default-constructed `FLatentActionInfo` (host type). -/
def AsyncLoadAnyAssets_Event (defaultInfo : FLatentActionInfo) (svc : FHostServices)
    (e : FEngine) (worldContextObject : UObjectPtr) (assets : TSet FSoftObjectPath)
    (onAssetsLoaded : FOnAssetsLoaded) : FEngine × List Effect :=
  let latentAction : FLatentActionInfo :=
    ⟨defaultInfo.Linkage, defaultInfo.UUID, defaultInfo.ExecutionFunction, worldContextObject⟩
  AsyncLoadAnyAssets svc e worldContextObject assets onAssetsLoaded latentAction

/-- Function `UAsyncLoadingLibrary::AsyncLoadAssets_Event`. -/
def AsyncLoadAssets_Event (defaultInfo : FLatentActionInfo) (svc : FHostServices)
    (e : FEngine) (worldContextObject : UObjectPtr) (assets : TSet TSoftObjectPtr)
    (onAssetsLoaded : FOnAssetsLoaded) : FEngine × List Effect :=
  let latentAction : FLatentActionInfo :=
    ⟨defaultInfo.Linkage, defaultInfo.UUID, defaultInfo.ExecutionFunction, worldContextObject⟩
  AsyncLoadAssets svc e worldContextObject assets onAssetsLoaded latentAction

/-- Function `UAsyncLoadingLibrary::AsyncLoadClasses_Event`. -/
def AsyncLoadClasses_Event (defaultInfo : FLatentActionInfo) (svc : FHostServices)
    (e : FEngine) (worldContextObject : UObjectPtr) (assets : TSet TSoftClassPtr)
    (onAssetsLoaded : FOnAssetsLoaded) : FEngine × List Effect :=
  let latentAction : FLatentActionInfo :=
    ⟨defaultInfo.Linkage, defaultInfo.UUID, defaultInfo.ExecutionFunction, worldContextObject⟩
  AsyncLoadClasses svc e worldContextObject assets onAssetsLoaded latentAction

/-- The asset argument of one request, by entry point. -/
inductive FRequest where
  | AnyAssets (assets : TSet FSoftObjectPath)
  | Assets (assets : TSet TSoftObjectPtr)
  | Classes (assets : TSet TSoftClassPtr)
deriving DecidableEq, Repr

/-- Call the deduplicated entry point that `req` names. -/
def FRequest.issue (req : FRequest) (svc : FHostServices) (e : FEngine)
    (worldContextObject : UObjectPtr) (onAssetsLoaded : FOnAssetsLoaded)
    (latentAction : FLatentActionInfo) : FEngine × List Effect :=
  match req with
  | .AnyAssets assets =>
    AsyncLoadAnyAssets svc e worldContextObject assets onAssetsLoaded latentAction
  | .Assets assets => AsyncLoadAssets svc e worldContextObject assets onAssetsLoaded latentAction
  | .Classes assets => AsyncLoadClasses svc e worldContextObject assets onAssetsLoaded latentAction

/-- Call the `_Event` entry point that `req` names. -/
def FRequest.issueEvent (req : FRequest) (defaultInfo : FLatentActionInfo) (svc : FHostServices)
    (e : FEngine) (worldContextObject : UObjectPtr) (onAssetsLoaded : FOnAssetsLoaded) :
    FEngine × List Effect :=
  match req with
  | .AnyAssets assets =>
    AsyncLoadAnyAssets_Event defaultInfo svc e worldContextObject assets onAssetsLoaded
  | .Assets assets =>
    AsyncLoadAssets_Event defaultInfo svc e worldContextObject assets onAssetsLoaded
  | .Classes assets =>
    AsyncLoadClasses_Event defaultInfo svc e worldContextObject assets onAssetsLoaded

/-- The identifier list a request's entry point hands to the action constructor. -/
def FRequest.paths : FRequest → List FSoftObjectPath
  | .AnyAssets assets => assets
  | .Assets assets => assets.map TSoftObjectPtr.ToSoftObjectPath
  | .Classes assets => assets.map TSoftClassPtr.ToSoftObjectPath

/-- Modelled from the spec: one scheduling cycle on one live action.  The scheduler
"invokes `UpdateOperation` on each live PendingAction until it signals finished"; a
finished action is "destroyed immediately after completion handling".  The result is
the trace of the cycle and whether the action was disposed. -/
def FLoadAssetActionBase.tick (host : FHostView) (a : FLoadAssetActionBase) :
    List Effect × Bool :=
  let r := a.UpdateOperation host ⟨false, []⟩
  if r.2.bRemoveAction then (r.1 ++ a.destroy, true) else (r.1, false)

/-- Modelled from the spec: one scheduling cycle on the registry entry under a key; a
finished action's "registry entry for this action's key is erased". -/
def FEngine.tickKey (host : FHostView) (e : FEngine) (World : UWorldPtr)
    (Target : UObjectPtr) (UUID : Int) : FEngine × List Effect :=
  match FLatentActionManager.FindExistingAction e.LatentActions World Target UUID with
  | none => (e, [])
  | some a =>
    let r := a.tick host
    if r.2 then (⟨FLatentActionManager.RemoveAction e.LatentActions World Target UUID, e.Loader⟩, r.1)
    else (e, r.1)

/-- Successive scheduling cycles on the entry under one key, one host view per cycle. -/
def FEngine.pollKey (e : FEngine) (World : UWorldPtr) (Target : UObjectPtr) (UUID : Int) :
    List FHostView → FEngine × List Effect
  | [] => (e, [])
  | host :: rest =>
    let r := e.tickKey host World Target UUID
    let r2 := FEngine.pollKey r.1 World Target UUID rest
    (r2.1, r.2 ++ r2.2)

/-! ## Observations on traces -/

/-- The event is an invocation of an `FOnAssetsLoaded` completion callback. -/
def Effect.isCallback : Effect → Bool
  | .ExecuteOnAssetsLoaded _ _ => true
  | _ => false

/-- The event is an invocation of a bundle's parameterless callback. -/
def Effect.isBundleCallback : Effect → Bool
  | .ExecuteStreamableDelegate _ => true
  | _ => false

/-- The event is a call of the external loader. -/
def Effect.isLoaderCall : Effect → Bool
  | .LoadAssetList _ _ _ _ => true
  | .RequestAsyncLoad _ _ => true
  | _ => false

/-- The event is a logged warning. -/
def Effect.isWarning : Effect → Bool
  | .LogWarning _ => true
  | _ => false

/-- The event hands exactly the object list `objs` to a callback. -/
def Effect.deliversObjects (objs : List UObjectPtr) : Effect → Bool
  | .ExecuteOnAssetsLoaded _ loaded => loaded == objs
  | _ => false

/-! ## Sample inputs -/

/-- A host in which the assets with an odd path are in memory, handle `0` is still
loading, every other handle has completed, and object `9` has been destroyed. -/
def sampleHost : FHostView :=
  ⟨fun p => if p.AssetPath % 2 = 1 then some (100 + p.AssetPath) else none,
   fun h => h != 0, fun _ => false, fun o => o != 9⟩

/-- A host in which nothing is in memory and no handle is done yet. -/
def loadingHost : FHostView :=
  ⟨fun _ => none, fun _ => false, fun _ => false, fun _ => true⟩

/-- A host in which object `9` has been destroyed and every handle has completed. -/
def doneHost : FHostView :=
  ⟨sampleHost.ResolveObject, fun _ => true, fun _ => false, fun o => o != 9⟩

/-- Services of a host with one world `1` for every context object except `0`, whose
loader returns no handle for an empty identifier list. -/
def sampleServices : FHostServices :=
  ⟨fun o => if o = 0 then none else some 1, fun paths => !paths.isEmpty⟩

def emptyEngine : FEngine := ⟨[], ⟨0⟩⟩

def sampleInfo : FLatentActionInfo := ⟨2, 7, 3, 5⟩

def sampleDefaultInfo : FLatentActionInfo := ⟨-1, -1, 0, 0⟩

/-- A bundle of two in-memory assets with a bound callback. -/
def resolvedBundle : FAsyncLoadBundle := ⟨[⟨⟨1⟩⟩, ⟨⟨3⟩⟩], some 4⟩

/-- A bundle mixing in-memory assets (`1`, `3`) with assets still to load (`2`, `4`). -/
def mixedBundle : FAsyncLoadBundle := ⟨[⟨⟨1⟩⟩, ⟨⟨2⟩⟩, ⟨⟨3⟩⟩, ⟨⟨4⟩⟩], some 4⟩

/-- An action on four references, two of which (`2`, `4`) never come into memory. -/
def sampleAction : FLoadAssetActionBase := ⟨[⟨1⟩, ⟨2⟩, ⟨3⟩, ⟨4⟩], some 0, some 8, 5, 3, 2⟩

/-- The action the constructor builds for an empty request when the loader returns no
handle for it. -/
def handlelessAction : FLoadAssetActionBase := ⟨[], none, some 8, 5, 3, 2⟩

theorem collect_foldl (host : FHostView) (l : List FBundleAsset) (acc : List FSoftObjectPath) :
    l.foldl (FAsyncLoadBundle.collectStep host) acc
      = acc ++ (l.filter (fun a => (a.GetObject host).isNone)).map FBundleAsset.GetPath := by
  induction l generalizing acc with
  | nil => simp
  | cons a l ih =>
    rw [List.foldl_cons, ih]
    cases h : (a.GetObject host).isNone <;>
      simp [FAsyncLoadBundle.collectStep, List.filter_cons, h]

theorem resolve_foldl (host : FHostView) (l : List FSoftObjectPath)
    (st : List UObjectPtr × List Effect) :
    l.foldl (FLoadAssetActionBase.resolveStep host) st
      = (st.1 ++ l.filterMap host.ResolveObject,
         st.2 ++ (l.filter (fun p => (host.ResolveObject p).isNone)).map Effect.LogWarning) := by
  induction l generalizing st with
  | nil => simp
  | cons p l ih =>
    rw [List.foldl_cons, ih]
    cases h : host.ResolveObject p <;>
      simp [FLoadAssetActionBase.resolveStep, List.filter_cons, List.filterMap_cons, h]

theorem filterMap_length_add (f : FSoftObjectPath → Option UObjectPtr) (l : List FSoftObjectPath) :
    (l.filterMap f).length + (l.filter (fun p => (f p).isNone)).length = l.length := by
  induction l with
  | nil => simp
  | cons p l ih =>
    cases h : f p <;> simp [List.filter_cons, List.filterMap_cons, h] <;> omega

theorem countP_map_warning (l : List FSoftObjectPath) :
    (l.map Effect.LogWarning).countP Effect.isWarning = l.length := by
  induction l with
  | nil => simp
  | cons p l ih => simp [List.countP_cons, Effect.isWarning, ih]

theorem countP_callback_map_warning (l : List FSoftObjectPath) :
    (l.map Effect.LogWarning).countP Effect.isCallback = 0 := by
  induction l with
  | nil => simp
  | cons p l ih => simp [List.countP_cons, Effect.isCallback, ih]

theorem OnLoaded_eq (host : FHostView) (a : FLoadAssetActionBase) :
    a.OnLoaded host = match a.OnLoadedCallback with
      | some d =>
        (a.SoftObjectPaths.filter (fun p => (host.ResolveObject p).isNone)).map Effect.LogWarning
          ++ [Effect.ExecuteOnAssetsLoaded d (a.SoftObjectPaths.filterMap host.ResolveObject)]
      | none => [] := by
  unfold FLoadAssetActionBase.OnLoaded
  cases a.OnLoadedCallback with
  | none => rfl
  | some d => simp [resolve_foldl]

/-! ## Immediate bundle trigger -/

/-- C2 (as amended): for a bundle whose references all resolve (the empty bundle included),
`TriggerLoad` never calls the loader; a bound callback is executed synchronously, exactly
once and without arguments, and with an unbound callback nothing happens at all. -/
theorem TriggerLoad_all_resolved (host : FHostView) (b : FAsyncLoadBundle)
    (loadPriority : TAsyncLoadPriority) (debugName : String)
    (hres : ∀ a ∈ b.ObjectBundle, (a.GetObject host).isSome = true) :
    b.TriggerLoad host loadPriority debugName
      = (match b.CallbackDelegate with
         | some d => [Effect.ExecuteStreamableDelegate d]
         | none => [])
    ∧ (b.TriggerLoad host loadPriority debugName).countP Effect.isLoaderCall = 0
    ∧ (b.TriggerLoad host loadPriority debugName).countP Effect.isBundleCallback
        = (if b.CallbackDelegate.isSome then 1 else 0) := by
  have hnil : (b.ObjectBundle.filter (fun a => (a.GetObject host).isNone)) = [] := by
    rw [List.filter_eq_nil_iff]
    intro a ha
    have := hres a ha
    cases h : a.GetObject host <;> simp_all
  have heq : b.TriggerLoad host loadPriority debugName
      = (match b.CallbackDelegate with
         | some d => [Effect.ExecuteStreamableDelegate d]
         | none => []) := by
    simp [FAsyncLoadBundle.TriggerLoad, collect_foldl, hnil]
  rw [heq]
  cases b.CallbackDelegate <;> simp [Effect.isLoaderCall, Effect.isBundleCallback]

theorem TriggerLoad_all_resolved_witness :
    (∀ a ∈ resolvedBundle.ObjectBundle, (a.GetObject sampleHost).isSome = true)
    ∧ (resolvedBundle.TriggerLoad sampleHost 50 "LoadAsyncBundle"
        = (match resolvedBundle.CallbackDelegate with
           | some d => [Effect.ExecuteStreamableDelegate d]
           | none => [])
      ∧ (resolvedBundle.TriggerLoad sampleHost 50 "LoadAsyncBundle").countP Effect.isLoaderCall = 0
      ∧ (resolvedBundle.TriggerLoad sampleHost 50 "LoadAsyncBundle").countP Effect.isBundleCallback
          = (if resolvedBundle.CallbackDelegate.isSome then 1 else 0)) :=
  ⟨by decide, TriggerLoad_all_resolved sampleHost resolvedBundle 50 "LoadAsyncBundle" (by decide)⟩

/-- C2 (as stated) fails: the bundle `resolvedBundle` is fully resolved, to the objects
`[101, 103]`, and its callback is bound, yet the only thing `TriggerLoad` does is execute the
callback without arguments: no event hands the resolved list to a callback. -/
theorem TriggerLoad_all_resolved_no_list :
    (∀ a ∈ resolvedBundle.ObjectBundle, (a.GetObject sampleHost).isSome = true)
    ∧ resolvedBundle.ObjectBundle.filterMap (FBundleAsset.GetObject sampleHost) = [101, 103]
    ∧ resolvedBundle.TriggerLoad sampleHost 50 "LoadAsyncBundle"
        = [Effect.ExecuteStreamableDelegate 4]
    ∧ ¬ ∃ ev ∈ resolvedBundle.TriggerLoad sampleHost 50 "LoadAsyncBundle",
        Effect.deliversObjects [101, 103] ev = true := by
  refine ⟨by decide, by decide, by decide, ?_⟩
  have h : resolvedBundle.TriggerLoad sampleHost 50 "LoadAsyncBundle"
      = [Effect.ExecuteStreamableDelegate 4] := by decide
  rw [h]
  simp [Effect.deliversObjects]

/-- C7: for a bundle with at least one reference whose path resolves to no in-memory
object, the whole effect of `TriggerLoad` is one `LoadAssetList` call whose identifier list
is exactly the paths of the bundle's references that do not resolve, in bundle order and
without any of the resolved ones, with the bundle's callback, the priority and the debug
label passed through; the callback itself is not executed by `TriggerLoad`. -/
theorem TriggerLoad_unresolved (host : FHostView) (b : FAsyncLoadBundle)
    (loadPriority : TAsyncLoadPriority) (debugName : String)
    (hun : ∃ a ∈ b.ObjectBundle, host.ResolveObject a.ObjectPath = none) :
    b.TriggerLoad host loadPriority debugName
      = [Effect.LoadAssetList
          ((b.ObjectBundle.filter (fun a => (host.ResolveObject a.ObjectPath).isNone)).map
            (fun a => a.ObjectPath))
          b.CallbackDelegate loadPriority debugName]
    ∧ (b.TriggerLoad host loadPriority debugName).countP Effect.isLoaderCall = 1
    ∧ (b.TriggerLoad host loadPriority debugName).countP Effect.isBundleCallback = 0 := by
  obtain ⟨a, ha, hnone⟩ := hun
  have hne : (b.ObjectBundle.filter (fun a => (host.ResolveObject a.ObjectPath).isNone))
      ≠ [] := by
    intro h
    rw [List.filter_eq_nil_iff] at h
    have := h a ha
    simp [hnone] at this
  have heq : b.TriggerLoad host loadPriority debugName
      = [Effect.LoadAssetList
          ((b.ObjectBundle.filter (fun a => (host.ResolveObject a.ObjectPath).isNone)).map
            (fun a => a.ObjectPath))
          b.CallbackDelegate loadPriority debugName] := by
    have hpos : 0 < (b.ObjectBundle.filter
        (fun a => (host.ResolveObject a.ObjectPath).isNone)).length :=
      List.length_pos.mpr hne
    have hloop : ∀ (l : List FBundleAsset) (acc : List FSoftObjectPath),
        l.foldl (FAsyncLoadBundle.collectStep host) acc
          = acc ++ (l.filter (fun a => (host.ResolveObject a.ObjectPath).isNone)).map
              (fun a => a.ObjectPath) := by
      intro l
      induction l with
      | nil => simp
      | cons x l ih =>
        intro acc
        rw [List.foldl_cons, ih]
        cases h : (host.ResolveObject x.ObjectPath).isNone <;>
          simp [FAsyncLoadBundle.collectStep, FBundleAsset.GetObject, FBundleAsset.GetPath,
            List.filter_cons, h]
    simp [FAsyncLoadBundle.TriggerLoad, hloop, hpos]
  rw [heq]
  simp [Effect.isLoaderCall, Effect.isBundleCallback]

theorem TriggerLoad_unresolved_witness :
    (∃ a ∈ mixedBundle.ObjectBundle, sampleHost.ResolveObject a.ObjectPath = none)
    ∧ (mixedBundle.ObjectBundle.filter
          (fun a => (sampleHost.ResolveObject a.ObjectPath).isNone)).map (fun a => a.ObjectPath)
        = [⟨2⟩, ⟨4⟩]
    ∧ mixedBundle.TriggerLoad sampleHost 10 "Mixed"
        = [Effect.LoadAssetList [⟨2⟩, ⟨4⟩] (some 4) 10 "Mixed"]
    ∧ (mixedBundle.TriggerLoad sampleHost 10 "Mixed"
        = [Effect.LoadAssetList
            ((mixedBundle.ObjectBundle.filter
              (fun a => (sampleHost.ResolveObject a.ObjectPath).isNone)).map
                (fun a => a.ObjectPath))
            mixedBundle.CallbackDelegate 10 "Mixed"]
      ∧ (mixedBundle.TriggerLoad sampleHost 10 "Mixed").countP Effect.isLoaderCall = 1
      ∧ (mixedBundle.TriggerLoad sampleHost 10 "Mixed").countP Effect.isBundleCallback = 0) :=
  ⟨⟨⟨⟨2⟩⟩, by decide, by decide⟩, by decide, by decide,
   TriggerLoad_unresolved sampleHost mixedBundle 10 "Mixed" ⟨⟨⟨2⟩⟩, by decide, by decide⟩⟩

/-! ## Completion handling -/

/-- C3: with a bound callback, `OnLoaded` logs one warning for each reference that fails
to resolve and then executes the callback once with the resolved objects of the remaining
references, in request order: `M - N` objects and `N` warnings for `N` failures out of `M`. -/
theorem OnLoaded_partial (host : FHostView) (a : FLoadAssetActionBase) (d : Nat)
    (hb : a.OnLoadedCallback = some d) :
    a.OnLoaded host
      = (a.SoftObjectPaths.filter (fun p => (host.ResolveObject p).isNone)).map Effect.LogWarning
          ++ [Effect.ExecuteOnAssetsLoaded d (a.SoftObjectPaths.filterMap host.ResolveObject)]
    ∧ (a.SoftObjectPaths.filterMap host.ResolveObject).length
        = a.SoftObjectPaths.length
          - (a.SoftObjectPaths.filter (fun p => (host.ResolveObject p).isNone)).length
    ∧ (a.OnLoaded host).countP Effect.isWarning
        = (a.SoftObjectPaths.filter (fun p => (host.ResolveObject p).isNone)).length
    ∧ (a.OnLoaded host).countP Effect.isCallback = 1 := by
  have heq := OnLoaded_eq host a
  rw [hb] at heq
  simp only at heq
  have hlen := filterMap_length_add host.ResolveObject a.SoftObjectPaths
  refine ⟨heq, by omega, ?_, ?_⟩
  · rw [heq, List.countP_append, countP_map_warning]
    simp [Effect.isWarning]
  · rw [heq, List.countP_append, countP_callback_map_warning]
    simp [Effect.isCallback]

theorem OnLoaded_partial_witness :
    sampleAction.OnLoadedCallback = some 8
    ∧ (sampleAction.OnLoaded sampleHost
        = (sampleAction.SoftObjectPaths.filter
            (fun p => (sampleHost.ResolveObject p).isNone)).map Effect.LogWarning
          ++ [Effect.ExecuteOnAssetsLoaded 8
                (sampleAction.SoftObjectPaths.filterMap sampleHost.ResolveObject)]
      ∧ (sampleAction.SoftObjectPaths.filterMap sampleHost.ResolveObject).length
          = sampleAction.SoftObjectPaths.length
            - (sampleAction.SoftObjectPaths.filter
                (fun p => (sampleHost.ResolveObject p).isNone)).length
      ∧ (sampleAction.OnLoaded sampleHost).countP Effect.isWarning
          = (sampleAction.SoftObjectPaths.filter
              (fun p => (sampleHost.ResolveObject p).isNone)).length
      ∧ (sampleAction.OnLoaded sampleHost).countP Effect.isCallback = 1) :=
  ⟨rfl, OnLoaded_partial sampleHost sampleAction 8 rfl⟩

/-! ## One poll -/

theorem OnLoaded_callback_count (host : FHostView) (a : FLoadAssetActionBase) :
    (a.OnLoaded host).countP Effect.isCallback = if a.OnLoadedCallback.isSome then 1 else 0 := by
  rw [OnLoaded_eq]
  cases a.OnLoadedCallback with
  | none => simp
  | some d =>
    simp only [List.countP_append, countP_callback_map_warning]
    simp [Effect.isCallback]

theorem destroy_callback_count (a : FLoadAssetActionBase) :
    a.destroy.countP Effect.isCallback = 0 := by
  unfold FLoadAssetActionBase.destroy
  cases a.Handle <;> simp [Effect.isCallback]

theorem tick_eq (host : FHostView) (a : FLoadAssetActionBase) :
    a.tick host = if a.bLoaded host then (a.OnLoaded host ++ a.destroy, true) else ([], false) := by
  unfold FLoadAssetActionBase.tick FLoadAssetActionBase.UpdateOperation
    FLatentResponse.FinishAndTriggerIf
  cases a.bLoaded host <;> simp

/-- C9 (as amended): a poll runs completion handling and signals the scheduler that the
action is finished exactly when the action holds no valid handle or its handle reports
completed or cancelled, a cancelled handle being handled exactly like a completed one; in
every other poll nothing is called (no callback, no resolution) and the action stays
pending. -/
theorem UpdateOperation_finishes_iff (host : FHostView) (a : FLoadAssetActionBase)
    (Response : FLatentResponse) :
    ((a.UpdateOperation host Response).2.bRemoveAction = true
      ↔ (a.Handle = none
          ∨ ∃ h, a.Handle = some h ∧ (host.HasLoadCompleted h = true ∨ host.WasCanceled h = true)))
    ∧ ((a.UpdateOperation host Response).2.bRemoveAction = true →
        a.UpdateOperation host Response
          = (a.OnLoaded host,
             ⟨true, Response.LinksToExecute
                ++ [⟨a.ExecutionFunction, a.OutputLink, a.CallbackTarget⟩]⟩))
    ∧ ((a.UpdateOperation host Response).2.bRemoveAction = false →
        a.UpdateOperation host Response = ([], ⟨false, Response.LinksToExecute⟩)) := by
  unfold FLoadAssetActionBase.UpdateOperation FLatentResponse.FinishAndTriggerIf
    FLoadAssetActionBase.bLoaded
  cases hh : a.Handle with
  | none => simp
  | some h =>
    cases hc : host.HasLoadCompleted h <;> cases hw : host.WasCanceled h <;> simp [hc, hw]

/-- C9 (as stated) fails: an action whose loader returned no handle is polled while no
handle reports completed or cancelled; the poll nevertheless executes the callback and
signals that the action is finished. -/
theorem UpdateOperation_without_handle :
    (FLoadAssetActionBase.construct sampleServices.AcceptsLoad ⟨0⟩ [] (some 8) sampleInfo).1
        = handlelessAction
    ∧ (∀ h, loadingHost.HasLoadCompleted h = false ∧ loadingHost.WasCanceled h = false)
    ∧ handlelessAction.UpdateOperation loadingHost ⟨false, []⟩
        = ([Effect.ExecuteOnAssetsLoaded 8 []], ⟨true, [⟨3, 2, 5⟩]⟩) := by
  refine ⟨by decide, ?_, by decide⟩
  intro h
  exact ⟨rfl, rfl⟩

/-! ## Life of one action -/

open FLatentActionManager

theorem find_add_same (acts : List FLatentEntry) (w : UWorldPtr) (t : UObjectPtr) (u : Int)
    (a : FLoadAssetActionBase) :
    FindExistingAction (AddNewAction acts w t u a) w t u = some a := by
  simp [FindExistingAction, AddNewAction, FLatentEntry.hasKey]

theorem find_add_other (acts : List FLatentEntry) (w w2 : UWorldPtr) (t t2 : UObjectPtr)
    (u u2 : Int) (a : FLoadAssetActionBase) (hne : ¬ (w = w2 ∧ t = t2 ∧ u = u2)) :
    FindExistingAction (AddNewAction acts w t u a) w2 t2 u2 = FindExistingAction acts w2 t2 u2 := by
  have hk : FLatentEntry.hasKey w2 t2 u2 ⟨w, t, u, a⟩ = false := by
    simp only [FLatentEntry.hasKey, Bool.and_eq_false_iff, beq_eq_false_iff_ne, ne_eq]
    by_contra hc
    push_neg at hc
    exact hne ⟨hc.1.1, hc.1.2, hc.2⟩
  simp [FindExistingAction, AddNewAction, List.find?_cons, hk]

theorem remove_add_same (acts : List FLatentEntry) (w : UWorldPtr) (t : UObjectPtr) (u : Int)
    (a : FLoadAssetActionBase) :
    RemoveAction (AddNewAction acts w t u a) w t u = acts := by
  simp [RemoveAction, AddNewAction, FLatentEntry.hasKey]

theorem find_eraseP_other (p q : FLatentEntry → Bool) (l : List FLatentEntry)
    (hpq : ∀ x, p x = true → q x = false) :
    (l.eraseP p).find? q = l.find? q := by
  induction l with
  | nil => rfl
  | cons x l ih =>
    cases hp : p x
    · rw [List.eraseP_cons_of_neg (by simp [hp]), List.find?_cons, List.find?_cons, ih]
    · rw [List.eraseP_cons_of_pos hp, List.find?_cons, hpq x hp]

theorem find_remove_other (acts : List FLatentEntry) (w w2 : UWorldPtr) (t t2 : UObjectPtr)
    (u u2 : Int) (hne : ¬ (w = w2 ∧ t = t2 ∧ u = u2)) :
    FindExistingAction (RemoveAction acts w t u) w2 t2 u2 = FindExistingAction acts w2 t2 u2 := by
  unfold FindExistingAction RemoveAction
  rw [find_eraseP_other]
  intro x hx
  simp only [FLatentEntry.hasKey, Bool.and_eq_true, beq_iff_eq] at hx
  simp only [FLatentEntry.hasKey, Bool.and_eq_false_iff, beq_eq_false_iff_ne, ne_eq]
  by_contra hc
  push_neg at hc
  exact hne ⟨hx.1.1 ▸ hc.1.1, hx.1.2 ▸ hc.1.2, hx.2 ▸ hc.2⟩

theorem find_none_countP (acts : List FLatentEntry) (w : UWorldPtr) (t : UObjectPtr) (u : Int)
    (hfree : FindExistingAction acts w t u = none) :
    acts.countP (FLatentEntry.hasKey w t u) = 0 := by
  unfold FindExistingAction at hfree
  simp only [Option.map_eq_none', List.find?_eq_none] at hfree
  rw [List.countP_eq_zero]
  exact hfree

theorem convertSoftPtr_eq (assets : TSet TSoftObjectPtr) (out : List FSoftObjectPath) :
    ConvertSoftPtrSetToSoftObjectPathArray assets out
      = out ++ assets.map TSoftObjectPtr.ToSoftObjectPath := by
  unfold ConvertSoftPtrSetToSoftObjectPathArray
  induction assets generalizing out with
  | nil => simp
  | cons x xs ih => simp [List.foldl_cons, ih]

theorem convertSoftClassPtr_eq (assets : TSet TSoftClassPtr) (out : List FSoftObjectPath) :
    ConvertSoftClassPtrSetToSoftObjectPathArray assets out
      = out ++ assets.map TSoftClassPtr.ToSoftObjectPath := by
  unfold ConvertSoftClassPtrSetToSoftObjectPathArray
  induction assets generalizing out with
  | nil => simp
  | cons x xs ih => simp [List.foldl_cons, ih]

/-- A request under a key that already has an action does nothing at all. -/
theorem issue_existing (req : FRequest) (svc : FHostServices) (e : FEngine) (wco : UObjectPtr)
    (cb : FOnAssetsLoaded) (info : FLatentActionInfo) (w : UWorldPtr) (a : FLoadAssetActionBase)
    (hw : svc.GetWorldFromContextObject wco = some w)
    (hfind : FindExistingAction e.LatentActions w info.CallbackTarget info.UUID = some a) :
    req.issue svc e wco cb info = (e, []) := by
  cases req <;>
    simp [FRequest.issue, AsyncLoadAnyAssets, AsyncLoadAssets, AsyncLoadClasses, hw, hfind]

/-- A request under a free key constructs one action on the request's whole identifier
list and registers it under the key. -/
theorem issue_new (req : FRequest) (svc : FHostServices) (e : FEngine) (wco : UObjectPtr)
    (cb : FOnAssetsLoaded) (info : FLatentActionInfo) (w : UWorldPtr)
    (hw : svc.GetWorldFromContextObject wco = some w)
    (hfree : FindExistingAction e.LatentActions w info.CallbackTarget info.UUID = none) :
    req.issue svc e wco cb info
      = (⟨AddNewAction e.LatentActions w info.CallbackTarget info.UUID
            (FLoadAssetActionBase.construct svc.AcceptsLoad e.Loader req.paths cb info).1,
          (FLoadAssetActionBase.construct svc.AcceptsLoad e.Loader req.paths cb info).2.1⟩,
         (FLoadAssetActionBase.construct svc.AcceptsLoad e.Loader req.paths cb info).2.2) := by
  cases req <;>
    simp [FRequest.issue, AsyncLoadAnyAssets, AsyncLoadAssets, AsyncLoadClasses, hw, hfree,
      FRequest.paths, FLoadAssetActionBase.constructFromSet, convertSoftPtr_eq,
      convertSoftClassPtr_eq]

theorem issueEvent_eq (req : FRequest) (d : FLatentActionInfo) (svc : FHostServices)
    (e : FEngine) (wco : UObjectPtr) (cb : FOnAssetsLoaded) :
    req.issueEvent d svc e wco cb
      = req.issue svc e wco cb ⟨d.Linkage, d.UUID, d.ExecutionFunction, wco⟩ := by
  cases req <;> rfl

/-! ## Polling the registry -/

theorem tickKey_absent (host : FHostView) (e : FEngine) (w : UWorldPtr) (t : UObjectPtr)
    (u : Int) (hfree : FindExistingAction e.LatentActions w t u = none) :
    e.tickKey host w t u = (e, []) := by
  simp [FEngine.tickKey, hfree]

theorem tickKey_present (host : FHostView) (e : FEngine) (w : UWorldPtr) (t : UObjectPtr)
    (u : Int) (a : FLoadAssetActionBase)
    (hfind : FindExistingAction e.LatentActions w t u = some a) :
    e.tickKey host w t u
      = if a.bLoaded host then
          (⟨RemoveAction e.LatentActions w t u, e.Loader⟩, a.OnLoaded host ++ a.destroy)
        else (e, []) := by
  simp only [FEngine.tickKey, hfind, tick_eq]
  cases a.bLoaded host <;> simp

theorem pollKey_absent (e : FEngine) (w : UWorldPtr) (t : UObjectPtr) (u : Int)
    (hfree : FindExistingAction e.LatentActions w t u = none) (views : List FHostView) :
    e.pollKey w t u views = (e, []) := by
  induction views with
  | nil => rfl
  | cons v vs ih =>
    unfold FEngine.pollKey
    simp [tickKey_absent v e w t u hfree, ih]

theorem pollKey_head (acts0 : List FLatentEntry) (l : FLoader) (w : UWorldPtr) (t : UObjectPtr)
    (u : Int) (a : FLoadAssetActionBase) (hfree : FindExistingAction acts0 w t u = none)
    (views : List FHostView) :
    FEngine.pollKey ⟨AddNewAction acts0 w t u a, l⟩ w t u views
      = match views.find? (fun v => a.bLoaded v) with
        | some v => (⟨acts0, l⟩, a.OnLoaded v ++ a.destroy)
        | none => (⟨AddNewAction acts0 w t u a, l⟩, []) := by
  induction views with
  | nil => rfl
  | cons v vs ih =>
    unfold FEngine.pollKey
    rw [tickKey_present v _ w t u a (find_add_same acts0 w t u a), List.find?_cons]
    cases hb : a.bLoaded v
    · simp [ih]
    · simp [remove_add_same, pollKey_absent ⟨acts0, l⟩ w t u hfree]

theorem tickKey_frame (host : FHostView) (e : FEngine) (w w2 : UWorldPtr) (t t2 : UObjectPtr)
    (u u2 : Int) (hne : ¬ (w = w2 ∧ t = t2 ∧ u = u2)) :
    FindExistingAction (e.tickKey host w t u).1.LatentActions w2 t2 u2
      = FindExistingAction e.LatentActions w2 t2 u2 := by
  cases hfind : FindExistingAction e.LatentActions w t u with
  | none => rw [tickKey_absent host e w t u hfind]
  | some a =>
    rw [tickKey_present host e w t u a hfind]
    cases a.bLoaded host
    · simp
    · simp [find_remove_other _ w w2 t t2 u u2 hne]

theorem pollKey_frame (views : List FHostView) (e : FEngine) (w w2 : UWorldPtr)
    (t t2 : UObjectPtr) (u u2 : Int) (hne : ¬ (w = w2 ∧ t = t2 ∧ u = u2)) :
    FindExistingAction (e.pollKey w t u views).1.LatentActions w2 t2 u2
      = FindExistingAction e.LatentActions w2 t2 u2 := by
  induction views generalizing e with
  | nil => rfl
  | cons v vs ih =>
    unfold FEngine.pollKey
    simp only
    rw [ih, tickKey_frame v e w w2 t t2 u u2 hne]

theorem find_bLoaded_some_iff (a : FLoadAssetActionBase) (views : List FHostView) :
    (views.find? (fun v => a.bLoaded v)).isSome = true ↔ ∃ v ∈ views, a.bLoaded v = true := by
  simp [List.find?_isSome]

theorem pollKey_still_pending (acts0 : List FLatentEntry) (l : FLoader) (w : UWorldPtr)
    (t : UObjectPtr) (u : Int) (a : FLoadAssetActionBase)
    (hfree : FindExistingAction acts0 w t u = none) (pre : List FHostView)
    (hpend : (FindExistingAction
      (FEngine.pollKey ⟨AddNewAction acts0 w t u a, l⟩ w t u pre).1.LatentActions w t u).isSome
        = true) :
    FEngine.pollKey ⟨AddNewAction acts0 w t u a, l⟩ w t u pre
      = (⟨AddNewAction acts0 w t u a, l⟩, []) := by
  rw [pollKey_head acts0 l w t u a hfree] at hpend ⊢
  cases hf : pre.find? (fun v => a.bLoaded v) with
  | none => rfl
  | some v =>
    rw [hf] at hpend
    simp [hfree] at hpend

theorem pollKey_callback_count (acts0 : List FLatentEntry) (l : FLoader) (w : UWorldPtr)
    (t : UObjectPtr) (u : Int) (a : FLoadAssetActionBase)
    (hfree : FindExistingAction acts0 w t u = none) (post : List FHostView) :
    (FEngine.pollKey ⟨AddNewAction acts0 w t u a, l⟩ w t u post).2.countP Effect.isCallback
      = if a.OnLoadedCallback.isSome ∧ ∃ v ∈ post, a.bLoaded v = true then 1 else 0 := by
  rw [pollKey_head acts0 l w t u a hfree]
  cases hf : post.find? (fun v => a.bLoaded v) with
  | none =>
    have hno : ¬ ∃ v ∈ post, a.bLoaded v = true := by
      rw [← find_bLoaded_some_iff, hf]
      simp
    simp [hno]
  | some v =>
    have hyes : ∃ v ∈ post, a.bLoaded v = true := by
      rw [← find_bLoaded_some_iff, hf]
      rfl
    simp only [List.countP_append, OnLoaded_callback_count, destroy_callback_count, hyes,
      and_true, Nat.add_zero]

/-! ## Deduplicated requests -/

/-- C8 (as amended): a deduplicated request under a key with no existing action runs no
resolver: the identifier list snapshotted in the new action, and submitted to the loader in
the one `RequestAsyncLoad` call, is the complete requested set, already-resolved references
included. -/
theorem request_snapshots_whole_set (req : FRequest) (svc : FHostServices) (e : FEngine)
    (wco : UObjectPtr) (cb : FOnAssetsLoaded) (info : FLatentActionInfo) (w : UWorldPtr)
    (hw : svc.GetWorldFromContextObject wco = some w)
    (hfree : FindExistingAction e.LatentActions w info.CallbackTarget info.UUID = none) :
    ∃ a, FindExistingAction (req.issue svc e wco cb info).1.LatentActions w
            info.CallbackTarget info.UUID = some a
      ∧ a.SoftObjectPaths = req.paths
      ∧ (req.issue svc e wco cb info).2 = [Effect.RequestAsyncLoad req.paths a.Handle] := by
  refine ⟨(FLoadAssetActionBase.construct svc.AcceptsLoad e.Loader req.paths cb info).1, ?_, ?_, ?_⟩
  · rw [issue_new req svc e wco cb info w hw hfree]
    exact find_add_same _ _ _ _ _
  · rfl
  · rw [issue_new req svc e wco cb info w hw hfree]
    rfl

theorem request_snapshots_whole_set_witness :
    sampleServices.GetWorldFromContextObject 5 = some 1
    ∧ FindExistingAction emptyEngine.LatentActions 1 sampleInfo.CallbackTarget sampleInfo.UUID
        = none
    ∧ ∃ a, FindExistingAction
            ((FRequest.Assets [⟨⟨1⟩⟩, ⟨⟨2⟩⟩]).issue sampleServices emptyEngine 5 (some 8)
              sampleInfo).1.LatentActions 1 sampleInfo.CallbackTarget sampleInfo.UUID = some a
      ∧ a.SoftObjectPaths = (FRequest.Assets [⟨⟨1⟩⟩, ⟨⟨2⟩⟩]).paths
      ∧ ((FRequest.Assets [⟨⟨1⟩⟩, ⟨⟨2⟩⟩]).issue sampleServices emptyEngine 5 (some 8)
            sampleInfo).2
          = [Effect.RequestAsyncLoad (FRequest.Assets [⟨⟨1⟩⟩, ⟨⟨2⟩⟩]).paths a.Handle] :=
  ⟨rfl, rfl,
   request_snapshots_whole_set (FRequest.Assets [⟨⟨1⟩⟩, ⟨⟨2⟩⟩]) sampleServices emptyEngine 5
     (some 8) sampleInfo 1 rfl rfl⟩

/-- C8 (as stated) fails: asset `1` is already in memory, so the unresolved subset of the
request `{1, 2}` is `[2]`; the new action nevertheless snapshots `[1, 2]` and submits
`[1, 2]` to the loader. -/
theorem request_keeps_resolved_reference :
    sampleHost.ResolveObject ⟨1⟩ = some 101
    ∧ [(⟨1⟩ : FSoftObjectPath), ⟨2⟩].filter (fun p => (sampleHost.ResolveObject p).isNone)
        = [⟨2⟩]
    ∧ AsyncLoadAnyAssets sampleServices emptyEngine 5 [⟨1⟩, ⟨2⟩] (some 8) sampleInfo
        = (⟨[⟨1, 5, 7, ⟨[⟨1⟩, ⟨2⟩], some 0, some 8, 5, 3, 2⟩⟩], ⟨1⟩⟩,
           [Effect.RequestAsyncLoad [⟨1⟩, ⟨2⟩] (some 0)]) := by
  decide

/-- C10: the `_Event` entry points key their action by the world-context object and the
request token of the default-constructed latent info, whatever the asset set.  So once an
`_Event` request with set A has registered its action for an object, and for as long as that
action is pending, an `_Event` request with any set B on the same object changes nothing
and calls nothing, and every callback later executed under the key is A's delegate on the
objects of A's identifiers. -/
theorem event_requests_share_key (d : FLatentActionInfo) (svc : FHostServices) (e : FEngine)
    (wco : UObjectPtr) (w : UWorldPtr) (reqA reqB : FRequest) (cbA cbB : FOnAssetsLoaded)
    (pre : List FHostView)
    (hw : svc.GetWorldFromContextObject wco = some w)
    (hfree : FindExistingAction e.LatentActions w wco d.UUID = none)
    (hpend : (FindExistingAction
      ((reqA.issueEvent d svc e wco cbA).1.pollKey w wco d.UUID pre).1.LatentActions
        w wco d.UUID).isSome = true) :
    (∃ a, FindExistingAction (reqA.issueEvent d svc e wco cbA).1.LatentActions w wco d.UUID
            = some a
        ∧ a.SoftObjectPaths = reqA.paths ∧ a.OnLoadedCallback = cbA)
    ∧ reqB.issueEvent d svc ((reqA.issueEvent d svc e wco cbA).1.pollKey w wco d.UUID pre).1
          wco cbB
        = (((reqA.issueEvent d svc e wco cbA).1.pollKey w wco d.UUID pre).1, [])
    ∧ ∀ post ev,
        ev ∈ ((reqB.issueEvent d svc
                ((reqA.issueEvent d svc e wco cbA).1.pollKey w wco d.UUID pre).1
                wco cbB).1.pollKey w wco d.UUID post).2 →
        ev.isCallback = true →
        ∃ dA, ∃ v : FHostView, cbA = some dA
          ∧ ev = Effect.ExecuteOnAssetsLoaded dA (reqA.paths.filterMap v.ResolveObject) := by
  rw [issueEvent_eq] at hpend ⊢
  rw [issue_new reqA svc e wco cbA ⟨d.Linkage, d.UUID, d.ExecutionFunction, wco⟩ w hw hfree]
    at hpend ⊢
  simp only at hpend ⊢
  rw [pollKey_still_pending _ _ w wco d.UUID _ hfree pre hpend]
  simp only
  have hB : reqB.issueEvent d svc
      ⟨AddNewAction e.LatentActions w wco d.UUID
        (FLoadAssetActionBase.construct svc.AcceptsLoad e.Loader reqA.paths cbA
          ⟨d.Linkage, d.UUID, d.ExecutionFunction, wco⟩).1,
        (FLoadAssetActionBase.construct svc.AcceptsLoad e.Loader reqA.paths cbA
          ⟨d.Linkage, d.UUID, d.ExecutionFunction, wco⟩).2.1⟩ wco cbB
      = (⟨AddNewAction e.LatentActions w wco d.UUID
        (FLoadAssetActionBase.construct svc.AcceptsLoad e.Loader reqA.paths cbA
          ⟨d.Linkage, d.UUID, d.ExecutionFunction, wco⟩).1,
        (FLoadAssetActionBase.construct svc.AcceptsLoad e.Loader reqA.paths cbA
          ⟨d.Linkage, d.UUID, d.ExecutionFunction, wco⟩).2.1⟩, []) := by
    rw [issueEvent_eq]
    exact issue_existing reqB svc _ wco cbB _ w _ hw (find_add_same _ _ _ _ _)
  refine ⟨⟨_, find_add_same _ _ _ _ _, rfl, rfl⟩, hB, ?_⟩
  intro post ev hev hcb
  rw [hB] at hev
  simp only at hev
  rw [pollKey_head _ _ w wco d.UUID _ hfree] at hev
  cases hf : post.find? (fun v => (FLoadAssetActionBase.construct svc.AcceptsLoad e.Loader
      reqA.paths cbA ⟨d.Linkage, d.UUID, d.ExecutionFunction, wco⟩).1.bLoaded v) with
  | none =>
    rw [hf] at hev
    simp at hev
  | some v =>
    rw [hf] at hev
    simp only [List.mem_append] at hev
    rcases hev with hev | hev
    · rw [OnLoaded_eq] at hev
      cases hc : cbA with
      | none =>
        simp [FLoadAssetActionBase.construct, hc] at hev
      | some dA =>
        simp only [FLoadAssetActionBase.construct, hc, List.mem_append, List.mem_map,
          List.mem_singleton] at hev
        rcases hev with ⟨p, _, hp⟩ | hev
        · rw [← hp] at hcb
          simp [Effect.isCallback] at hcb
        · exact ⟨dA, v, rfl, hev⟩
    · have hz := destroy_callback_count (FLoadAssetActionBase.construct svc.AcceptsLoad e.Loader
        reqA.paths cbA ⟨d.Linkage, d.UUID, d.ExecutionFunction, wco⟩).1
      rw [List.countP_eq_zero] at hz
      exact absurd hcb (hz ev hev)

theorem event_requests_share_key_witness :
    sampleServices.GetWorldFromContextObject 5 = some 1
    ∧ FindExistingAction emptyEngine.LatentActions 1 5 sampleDefaultInfo.UUID = none
    ∧ (FindExistingAction
        (((FRequest.AnyAssets [⟨1⟩]).issueEvent sampleDefaultInfo sampleServices emptyEngine 5
          (some 8)).1.pollKey 1 5 sampleDefaultInfo.UUID [loadingHost]).1.LatentActions
        1 5 sampleDefaultInfo.UUID).isSome = true
    ∧ (FRequest.Classes [⟨⟨4⟩⟩]).issueEvent sampleDefaultInfo sampleServices
          (((FRequest.AnyAssets [⟨1⟩]).issueEvent sampleDefaultInfo sampleServices emptyEngine 5
            (some 8)).1.pollKey 1 5 sampleDefaultInfo.UUID [loadingHost]).1 5 (some 9)
        = ((((FRequest.AnyAssets [⟨1⟩]).issueEvent sampleDefaultInfo sampleServices emptyEngine 5
            (some 8)).1.pollKey 1 5 sampleDefaultInfo.UUID [loadingHost]).1, []) :=
  ⟨rfl, rfl, by decide,
   (event_requests_share_key sampleDefaultInfo sampleServices emptyEngine 5 1
      (FRequest.AnyAssets [⟨1⟩]) (FRequest.Classes [⟨⟨4⟩⟩]) (some 8) (some 9) [loadingHost]
      rfl rfl (by decide)).2.1⟩

/-- C6: for two distinct keys of one world, both free, a deduplicated request for the same
identifier set under the first and then under the second registers one action under each;
each request makes its own `RequestAsyncLoad` call and keeps the handle that call returned
(never the same handle) together with its own callback; and however the action under one
key is polled, up to and including its completion and removal, the action registered under
the other key is unchanged. -/
theorem distinct_keys_independent (req : FRequest) (svc : FHostServices) (e : FEngine)
    (w : UWorldPtr) (wco1 wco2 : UObjectPtr) (cb1 cb2 : FOnAssetsLoaded)
    (info1 info2 : FLatentActionInfo) (e1 e2 : FEngine) (a1 a2 : FLoadAssetActionBase)
    (hw1 : svc.GetWorldFromContextObject wco1 = some w)
    (hw2 : svc.GetWorldFromContextObject wco2 = some w)
    (hne : ¬ (info1.CallbackTarget = info2.CallbackTarget ∧ info1.UUID = info2.UUID))
    (hfree1 : FindExistingAction e.LatentActions w info1.CallbackTarget info1.UUID = none)
    (hfree2 : FindExistingAction e.LatentActions w info2.CallbackTarget info2.UUID = none)
    (he1 : e1 = (req.issue svc e wco1 cb1 info1).1)
    (he2 : e2 = (req.issue svc e1 wco2 cb2 info2).1)
    (ha1 : a1 = (FLoadAssetActionBase.construct svc.AcceptsLoad e.Loader req.paths cb1 info1).1)
    (ha2 : a2 = (FLoadAssetActionBase.construct svc.AcceptsLoad e1.Loader req.paths cb2 info2).1) :
    FindExistingAction e2.LatentActions w info1.CallbackTarget info1.UUID = some a1
    ∧ FindExistingAction e2.LatentActions w info2.CallbackTarget info2.UUID = some a2
    ∧ (req.issue svc e wco1 cb1 info1).2 = [Effect.RequestAsyncLoad req.paths a1.Handle]
    ∧ (req.issue svc e1 wco2 cb2 info2).2 = [Effect.RequestAsyncLoad req.paths a2.Handle]
    ∧ a1.OnLoadedCallback = cb1 ∧ a2.OnLoadedCallback = cb2
    ∧ (∀ h1 h2, a1.Handle = some h1 → a2.Handle = some h2 → h1 ≠ h2)
    ∧ (∀ views, FindExistingAction
          (e2.pollKey w info1.CallbackTarget info1.UUID views).1.LatentActions
          w info2.CallbackTarget info2.UUID = some a2)
    ∧ (∀ views, FindExistingAction
          (e2.pollKey w info2.CallbackTarget info2.UUID views).1.LatentActions
          w info1.CallbackTarget info1.UUID = some a1) := by
  have hne12 : ¬ (w = w ∧ info1.CallbackTarget = info2.CallbackTarget ∧ info1.UUID = info2.UUID) :=
    fun h => hne h.2
  have hne21 : ¬ (w = w ∧ info2.CallbackTarget = info1.CallbackTarget ∧ info2.UUID = info1.UUID) :=
    fun h => hne ⟨h.2.1.symm, h.2.2.symm⟩
  rw [issue_new req svc e wco1 cb1 info1 w hw1 hfree1] at he1
  have hacts1 : e1.LatentActions
      = AddNewAction e.LatentActions w info1.CallbackTarget info1.UUID a1 := by
    rw [he1, ha1]
  have hfree2b : FindExistingAction e1.LatentActions w info2.CallbackTarget info2.UUID = none := by
    rw [hacts1, find_add_other _ w w _ _ _ _ _ hne12]
    exact hfree2
  rw [issue_new req svc e1 wco2 cb2 info2 w hw2 hfree2b] at he2
  have hacts2 : e2.LatentActions
      = AddNewAction e1.LatentActions w info2.CallbackTarget info2.UUID a2 := by
    rw [he2, ha2]
  have hf1 : FindExistingAction e2.LatentActions w info1.CallbackTarget info1.UUID = some a1 := by
    rw [hacts2, find_add_other _ w w _ _ _ _ _ hne21, hacts1]
    exact find_add_same _ _ _ _ _
  have hf2 : FindExistingAction e2.LatentActions w info2.CallbackTarget info2.UUID = some a2 := by
    rw [hacts2]
    exact find_add_same _ _ _ _ _
  refine ⟨hf1, hf2, ?_, ?_, ?_, ?_, ?_, ?_, ?_⟩
  · rw [issue_new req svc e wco1 cb1 info1 w hw1 hfree1, ha1]
    rfl
  · rw [issue_new req svc e1 wco2 cb2 info2 w hw2 hfree2b, ha2]
    rfl
  · rw [ha1]
    rfl
  · rw [ha2]
    rfl
  · intro h1 h2 hh1 hh2
    have hl : e1.Loader
        = (FStreamableManager.RequestAsyncLoad svc.AcceptsLoad e.Loader req.paths).2 := by
      rw [he1]
      rfl
    rw [ha1] at hh1
    rw [ha2, hl] at hh2
    simp only [FLoadAssetActionBase.construct, FStreamableManager.RequestAsyncLoad] at hh1 hh2
    cases hacc : svc.AcceptsLoad req.paths
    · simp [hacc] at hh1
    · simp only [hacc, if_true, Option.some.injEq] at hh1 hh2
      rw [← hh1, ← hh2]
      exact Nat.ne_of_lt (Nat.lt_succ_self _)
  · intro views
    rw [pollKey_frame views e2 w w _ _ _ _ hne12]
    exact hf2
  · intro views
    rw [pollKey_frame views e2 w w _ _ _ _ hne21]
    exact hf1

theorem distinct_keys_independent_witness :
    FindExistingAction
        (((FRequest.AnyAssets [⟨1⟩, ⟨2⟩]).issue sampleServices
            ((FRequest.AnyAssets [⟨1⟩, ⟨2⟩]).issue sampleServices emptyEngine 5 (some 8)
              sampleInfo).1 6 (some 9) ⟨2, 7, 3, 6⟩).1.pollKey 1 5 7
          [loadingHost, sampleHost, sampleHost]).1.LatentActions 1 6 7
      = some (FLoadAssetActionBase.construct sampleServices.AcceptsLoad
          ((FRequest.AnyAssets [⟨1⟩, ⟨2⟩]).issue sampleServices emptyEngine 5 (some 8)
              sampleInfo).1.Loader (FRequest.AnyAssets [⟨1⟩, ⟨2⟩]).paths (some 9)
          ⟨2, 7, 3, 6⟩).1 :=
  (distinct_keys_independent (FRequest.AnyAssets [⟨1⟩, ⟨2⟩]) sampleServices emptyEngine 1 5 6
    (some 8) (some 9) sampleInfo ⟨2, 7, 3, 6⟩ _ _ _ _ rfl rfl (by decide) rfl rfl rfl rfl rfl
    rfl).2.2.2.2.2.2.2.1 [loadingHost, sampleHost, sampleHost]

/-- C1 (as amended): when a deduplicated request has registered an action under a free key
and that action is still pending after the polls made so far, a second deduplicated request
with the same key (any entry point, any asset set, any callback) starts no load and
registers nothing, so exactly one action is registered under the key; and over every
subsequent sequence of polls the completion callback is invoked at most once, exactly once
precisely when it is bound and some poll finds the handle absent, completed or cancelled. -/
theorem duplicate_request_dropped (req1 req2 : FRequest) (svc : FHostServices) (e : FEngine)
    (w : UWorldPtr) (wco1 wco2 : UObjectPtr) (cb1 cb2 : FOnAssetsLoaded)
    (info1 info2 : FLatentActionInfo) (pre : List FHostView) (a1 : FLoadAssetActionBase)
    (e1 : FEngine)
    (hw1 : svc.GetWorldFromContextObject wco1 = some w)
    (hw2 : svc.GetWorldFromContextObject wco2 = some w)
    (hfree : FindExistingAction e.LatentActions w info1.CallbackTarget info1.UUID = none)
    (hkey : info2.CallbackTarget = info1.CallbackTarget ∧ info2.UUID = info1.UUID)
    (ha1 : a1 = (FLoadAssetActionBase.construct svc.AcceptsLoad e.Loader req1.paths cb1 info1).1)
    (he1 : e1 = ((req1.issue svc e wco1 cb1 info1).1.pollKey w info1.CallbackTarget info1.UUID
                  pre).1)
    (hpend : (FindExistingAction e1.LatentActions w info1.CallbackTarget info1.UUID).isSome
              = true) :
    ((req1.issue svc e wco1 cb1 info1).1.pollKey w info1.CallbackTarget info1.UUID pre).2 = []
    ∧ req2.issue svc e1 wco2 cb2 info2 = (e1, [])
    ∧ FindExistingAction e1.LatentActions w info1.CallbackTarget info1.UUID = some a1
    ∧ e1.LatentActions.countP (FLatentEntry.hasKey w info1.CallbackTarget info1.UUID) = 1
    ∧ ∀ post,
        (((req2.issue svc e1 wco2 cb2 info2).1.pollKey w info1.CallbackTarget info1.UUID
            post).2.countP Effect.isCallback ≤ 1)
        ∧ (((req2.issue svc e1 wco2 cb2 info2).1.pollKey w info1.CallbackTarget info1.UUID
            post).2.countP Effect.isCallback = 1
           ↔ (cb1.isSome = true ∧ ∃ v ∈ post, a1.bLoaded v = true)) := by
  rw [issue_new req1 svc e wco1 cb1 info1 w hw1 hfree] at he1 ⊢
  simp only at he1 ⊢
  rw [← ha1] at he1 ⊢
  rw [he1] at hpend
  have hstill := pollKey_still_pending e.LatentActions
    (FLoadAssetActionBase.construct svc.AcceptsLoad e.Loader req1.paths cb1 info1).2.1
    w info1.CallbackTarget info1.UUID a1 hfree pre hpend
  rw [hstill] at he1 ⊢
  simp only at he1
  have hfind : FindExistingAction e1.LatentActions w info1.CallbackTarget info1.UUID = some a1 := by
    rw [he1]
    exact find_add_same _ _ _ _ _
  have hfind2 : FindExistingAction e1.LatentActions w info2.CallbackTarget info2.UUID = some a1 := by
    rw [hkey.1, hkey.2]
    exact hfind
  have hdup := issue_existing req2 svc e1 wco2 cb2 info2 w a1 hw2 hfind2
  have hcb : a1.OnLoadedCallback = cb1 := by
    rw [ha1]
    rfl
  refine ⟨rfl, hdup, hfind, ?_, ?_⟩
  · rw [he1]
    simp only [AddNewAction, List.countP_cons]
    rw [find_none_countP _ _ _ _ hfree]
    simp [FLatentEntry.hasKey]
  · intro post
    rw [hdup]
    simp only
    rw [he1, pollKey_callback_count e.LatentActions _ w info1.CallbackTarget info1.UUID a1 hfree
      post, hcb]
    by_cases hc : cb1.isSome = true ∧ ∃ v ∈ post, a1.bLoaded v = true
    · simp only [hc, and_self, if_true]
      simp
    · rw [if_neg hc]
      simp [hc]

theorem duplicate_request_dropped_witness :
    (FRequest.Classes [⟨⟨4⟩⟩]).issue sampleServices
        (((FRequest.AnyAssets [⟨1⟩, ⟨2⟩]).issue sampleServices emptyEngine 5 (some 8)
          sampleInfo).1.pollKey 1 5 7 [loadingHost]).1 6 (some 9) ⟨0, 7, 1, 5⟩
      = ((((FRequest.AnyAssets [⟨1⟩, ⟨2⟩]).issue sampleServices emptyEngine 5 (some 8)
          sampleInfo).1.pollKey 1 5 7 [loadingHost]).1, []) :=
  (duplicate_request_dropped (FRequest.AnyAssets [⟨1⟩, ⟨2⟩]) (FRequest.Classes [⟨⟨4⟩⟩])
    sampleServices emptyEngine 1 5 6 (some 8) (some 9) sampleInfo ⟨0, 7, 1, 5⟩ [loadingHost]
    _ _ rfl rfl rfl ⟨rfl, rfl⟩ rfl rfl (by decide)).2.1

/-- C1 (as stated) fails: after two identical deduplicated requests, a sequence of polls
in which the handle reports neither completed nor cancelled invokes the completion callback
zero times, not once; and when the requests carry an unbound delegate, polls that do reach
completion and dispose the action invoke nothing either. -/
theorem duplicate_request_no_callback_while_loading :
    ((AsyncLoadAnyAssets sampleServices
        (AsyncLoadAnyAssets sampleServices emptyEngine 5 [⟨1⟩, ⟨2⟩] (some 8) sampleInfo).1
        5 [⟨1⟩, ⟨2⟩] (some 8) sampleInfo).1.pollKey 1 5 7
      [loadingHost, loadingHost]).2.countP Effect.isCallback = 0
    ∧ (AsyncLoadAnyAssets sampleServices
        (AsyncLoadAnyAssets sampleServices emptyEngine 5 [⟨1⟩, ⟨2⟩] none sampleInfo).1
        5 [⟨1⟩, ⟨2⟩] none sampleInfo).1.pollKey 1 5 7 [loadingHost, doneHost]
      = (⟨[], ⟨1⟩⟩, [Effect.ReleaseHandle 0]) := by
  decide

/-! ## Invalidated continuation target -/

end AsyncLoadingLibrary
